import Mathlib

/-!
Shallow embedding of the URL-shortener core (src/src/lib.rs) and proofs of the
frozen specification claims.

Strings from the Rust source are modelled by Lean `String`, with all operations
defined structurally over the underlying character list so that concrete
instances evaluate by `decide`/`rfl`.  Timestamps compared by the expiration
policy are modelled as `Int` via an abstract RFC3339 parse oracle; timestamps
stored on rows keep their string form, exactly as in the source.  The SQLite
store is modelled as lists of rows; fallible store statements take an explicit
verdict (success or a reported error), with the unique-constraint check on
`urls.code` computed from the rows themselves.
-/

namespace UrlShortener

/-! ## String helpers (structural models of the `str` operations used) -/

/-- Model of Rust `str::trim` on a character list: drop whitespace from both ends. -/
def trimList (l : List Char) : List Char :=
  ((l.dropWhile Char.isWhitespace).reverse.dropWhile Char.isWhitespace).reverse

/-- Model of Rust `str::trim`. -/
def strTrim (s : String) : String := ⟨trimList s.data⟩

/-- Model of Rust `str::is_empty`. -/
def strIsEmpty (s : String) : Bool := s.data.isEmpty

/-- Model of Rust `str::starts_with` (case-sensitive literal test). -/
def strStarts (s p : String) : Bool := p.data.isPrefixOf s.data

/-- Model of SQLite `substr(s, 1, n)` on RFC3339 (ASCII) text: the first `n` characters. -/
def strTake (s : String) (n : Nat) : String := ⟨s.data.take n⟩

/-- Model of Rust `s.split(',').next().unwrap()`: everything before the first comma. -/
def firstCommaTok (l : List Char) : List Char := l.takeWhile (fun c => c ≠ ',')

/-- Lexicographic order on character lists, the order SQLite uses for `ORDER BY`
on ASCII text columns. -/
def lexLe : List Char → List Char → Bool
  | [], _ => true
  | _ :: _, [] => false
  | a :: as, b :: bs => if a < b then true else if b < a then false else lexLe as bs

/-- Lexicographic order on strings (SQLite text `ORDER BY`). -/
def strLe (a b : String) : Bool := lexLe a.data b.data

/-! ## Data model: persisted rows and outcome statuses -/

/-- A row of the `urls` table. -/
structure Link where
  code : String
  target_url : String
  created_at : String
  expires_at : Option String
  created_ip : Option String
  created_user_agent : Option String
deriving Repr, DecidableEq

/-- A row of the `clicks` table.  The `at` column is called `at'` here because
`at` is a Lean keyword. -/
structure Click where
  code : String
  at' : String
  ip : Option String
  user_agent : Option String
  referer : Option String
  country : Option String
  city : Option String
deriving Repr, DecidableEq

/-- The relational store: the two tables, rows in insertion order. -/
structure Store where
  urls : List Link
  clicks : List Click
deriving Repr, DecidableEq

/-- The HTTP status codes the handlers produce on the error path. -/
inductive Status where
  | badRequest
  | conflict
  | internalServerError
  | notFound
  | gone
  | tooManyRequests
deriving Repr, DecidableEq

/-- Model of `fetch_optional` for `SELECT ... FROM urls WHERE code = ?`:
the first row whose `code` matches. -/
def find_url (s : Store) (code : String) : Option Link :=
  s.urls.find? (fun l => l.code = code)

/-- The Click rows belonging to one code (`WHERE code = ?`). -/
def clicks_for (s : Store) (code : String) : List Click :=
  s.clicks.filter (fun c => c.code = code)

/-! ## Rate limiter (`RateLimiter::new` / `RateLimiter::allow`) -/

/-- The rate limiter configuration (`RateLimiter::new(limit, window)`).
Instants are modelled as `Nat` (monotone clock); the per-key map is a total
function defaulting to `[]`, matching `entry(key).or_default()`. -/
structure RateLimiter where
  limit : Nat
  window : Nat
deriving Repr, DecidableEq

/-- The initial (empty) rate-limiter state. -/
def rl_empty : String → List Nat := fun _ => []

/-- Model of `RateLimiter::allow`: prune the key's entry to the trailing
window, reject without recording when `limit` entries remain, otherwise
record `now`.  Returns the decision and the updated state. -/
def RateLimiter.allow (rl : RateLimiter) (st : String → List Nat) (key : String)
    (now : Nat) : Bool × (String → List Nat) :=
  let pruned := (st key).filter (fun t => now - t < rl.window)
  if rl.limit ≤ pruned.length then
    (false, fun k => if k = key then pruned else st k)
  else
    (true, fun k => if k = key then pruned ++ [now] else st k)

/-- Run a sequence of `allow` calls, collecting each call's decision and the
final state. -/
def rl_run (rl : RateLimiter) (st : String → List Nat) :
    List (String × Nat) → List Bool × (String → List Nat)
  | [] => ([], st)
  | (k, t) :: rest =>
    let step := rl.allow st k t
    let tail := rl_run rl step.2 rest
    (step.1 :: tail.1, tail.2)

/-- The call times of a trace are nondecreasing (the `Instant::now` clock is
monotone). -/
def timesMono : List (String × Nat) → Bool
  | [] => true
  | [_] => true
  | a :: b :: rest => a.2 ≤ b.2 && timesMono (b :: rest)

/-- Model of `rate_limit_middleware`: key by the forwarded-for client IP
(fallback `"local"`), reject with 429 when `allow` refuses. -/
def rate_limit_middleware (rl : RateLimiter) (st : String → List Nat)
    (ip_opt : Option String) (now : Nat) :
    Option (Status × String) × (String → List Nat) :=
  let ip := ip_opt.getD "local"
  let step := rl.allow st ip now
  if step.1 then (none, step.2)
  else (some (.tooManyRequests, "rate limit exceeded (10 requests/minute)"), step.2)

/-! ## Code generation and link creation (`gen_code`, `insert_url`, `shorten`) -/

/-- The 62-symbol alphabet of `rand::distributions::Alphanumeric`. -/
def alphanumericChars : List Char :=
  "ABCDEFGHIJKLMNOPQRSTUVWXYZabcdefghijklmnopqrstuvwxyz0123456789".data

/-- One draw from the `Alphanumeric` distribution, the randomness source
modelled as a natural number. -/
def alphanumericSample (r : Nat) : Char := alphanumericChars.getD (r % 62) 'A'

/-- Model of `gen_code`: seven samples from the alphanumeric distribution,
the underlying RNG modelled as a stream of draws. -/
def gen_code (rng : Nat → Nat) : String :=
  ⟨(List.range 7).map (fun i => alphanumericSample (rng i))⟩

/-- The store's verdict on one fallible statement: either it executes the
statement, or it reports an error with a message. -/
inductive StoreVerdict where
  | ok
  | fail (msg : String)
deriving Repr, DecidableEq

/-- The error classification of `insert_url` (`InsertUrlError` in the source). -/
inductive InsertUrlError where
  | codeTaken
  | other (msg : String)
deriving Repr, DecidableEq

/-- Model of `insert_url`: a uniqueness violation on `code` is `CodeTaken`,
any other store error is `Other`; on success the row is appended. -/
def insert_url (s : Store) (verdict : StoreVerdict) (l : Link) :
    Except InsertUrlError Store :=
  match verdict with
  | .fail msg => .error (.other msg)
  | .ok =>
    if s.urls.any (fun u => u.code = l.code) then .error .codeTaken
    else .ok { s with urls := s.urls ++ [l] }

/-- Model of `validate_custom_code`: length in [3,32] and charset
`[A-Za-z0-9_-]`. -/
def validate_custom_code (code : String) : Except String Unit :=
  if ¬(3 ≤ code.data.length ∧ code.data.length ≤ 32) then
    .error "custom_code must be 3-32 characters"
  else if ¬(∀ c ∈ code.data, c.isAlphanum = true ∨ c = '-' ∨ c = '_') then
    .error "custom_code must be alphanumeric (plus - and _)"
  else .ok ()

/-- Model of `normalize_url`: trim, then require an `http://` or `https://` prefix. -/
def normalize_url (input : String) : Option String :=
  let trimmed := strTrim input
  if strStarts trimmed "http://" || strStarts trimmed "https://" then some trimmed
  else none

/-- The request payload of `shorten` (`ShortenReq`). -/
structure ShortenReq where
  url : String
  custom_code : Option String
  expires_at : Option String
deriving Repr, DecidableEq

/-- The success payload of `shorten` (`ShortenResp`). -/
structure ShortenResp where
  code : String
  short_url : String
  qr_png_url : String
  expires_at : Option String
deriving Repr, DecidableEq

/-- The state of the generate-and-insert retry loop when it stops: the store,
the successful code (if any), the first non-uniqueness error (if any), and how
many insert attempts were made. -/
structure LoopResult where
  store : Store
  code : Option String
  last_err : Option String
  attempts : Nat
deriving Repr, DecidableEq

/-- Model of the `for _ in 0..MAX_ATTEMPTS` generate-and-insert loop in
`shorten`: argument `i` is the index of the next attempt, the second argument
the remaining fuel.  `rngs i` is the randomness consumed by attempt `i`, and
`verdicts i` the store's verdict on attempt `i`. -/
def gen_insert_loop (mkL : String → Link) (rngs : Nat → Nat → Nat)
    (verdicts : Nat → StoreVerdict) (s : Store) : Nat → Nat → LoopResult
  | i, 0 => { store := s, code := none, last_err := none, attempts := i }
  | i, fuel + 1 =>
    match insert_url s (verdicts i) (mkL (gen_code (rngs i))) with
    | .ok s' =>
      { store := s', code := some (gen_code (rngs i)), last_err := none, attempts := i + 1 }
    | .error .codeTaken => gen_insert_loop mkL rngs verdicts s (i + 1) fuel
    | .error (.other msg) =>
      { store := s, code := none, last_err := some msg, attempts := i + 1 }

/-- `MAX_ATTEMPTS` from `shorten`. -/
def MAX_ATTEMPTS : Nat := 8

instance {ε α : Type} [DecidableEq ε] [DecidableEq α] : DecidableEq (Except ε α) :=
  fun a b =>
  match a, b with
  | .ok x, .ok y =>
    if h : x = y then isTrue (by rw [h]) else isFalse (by intro he; cases he; exact h rfl)
  | .error x, .error y =>
    if h : x = y then isTrue (by rw [h]) else isFalse (by intro he; cases he; exact h rfl)
  | .ok _, .error _ => isFalse (by intro he; cases he)
  | .error _, .ok _ => isFalse (by intro he; cases he)

/-- The observable outcome of one `shorten` call: the HTTP-level result, the
resulting store, and how many `urls` inserts were attempted. -/
structure ShortenOutcome where
  result : Except (Status × String) ShortenResp
  store : Store
  attempts : Nat
deriving Repr, DecidableEq

/-- The response body built by `shorten` on success. -/
def mkResp (base_url code : String) (expires_at : Option String) : ShortenResp :=
  { code := code,
    short_url := base_url ++ "/" ++ code,
    qr_png_url := base_url ++ "/api/links/" ++ code ++ "/qr",
    expires_at := expires_at }

/-- The `expires_at` validation of `shorten`: absent, or parseable RFC3339. -/
def expiry_ok (parse : String → Option Int) (e : Option String) : Bool :=
  match e with
  | none => true
  | some exp => (parse exp).isSome

/-- Model of the `shorten` handler.  `parse` is the RFC3339 parse oracle
(`OffsetDateTime::parse`), `created_at` the formatted creation timestamp. -/
def shorten (parse : String → Option Int) (rngs : Nat → Nat → Nat)
    (verdicts : Nat → StoreVerdict) (base_url created_at : String)
    (ip ua : Option String) (s : Store) (payload : ShortenReq) : ShortenOutcome :=
  match normalize_url payload.url with
  | none =>
    { result := .error (.badRequest, "url must start with http:// or https://"),
      store := s, attempts := 0 }
  | some target =>
    if !(expiry_ok parse payload.expires_at) then
      { result := .error (.badRequest, "expires_at must be RFC3339 (e.g. 2026-01-31T00:00:00Z)"),
        store := s, attempts := 0 }
    else
      let mkL : String → Link := fun c =>
        { code := c, target_url := target, created_at := created_at,
          expires_at := payload.expires_at, created_ip := ip, created_user_agent := ua }
      match payload.custom_code with
      | some custom =>
        match validate_custom_code custom with
        | .error msg => { result := .error (.badRequest, msg), store := s, attempts := 0 }
        | .ok _ =>
          match insert_url s (verdicts 0) (mkL custom) with
          | .error .codeTaken =>
            { result := .error (.conflict, "code already exists"), store := s, attempts := 1 }
          | .error (.other msg) =>
            { result := .error (.internalServerError, "internal error: " ++ msg),
              store := s, attempts := 1 }
          | .ok s' =>
            { result := .ok (mkResp base_url custom payload.expires_at),
              store := s', attempts := 1 }
      | none =>
        let r := gen_insert_loop mkL rngs verdicts s 0 MAX_ATTEMPTS
        match r.code with
        | some c =>
          { result := .ok (mkResp base_url c payload.expires_at),
            store := r.store, attempts := r.attempts }
        | none =>
          { result := .error (.internalServerError,
              "internal error: " ++ (r.last_err.getD "failed to generate code")),
            store := r.store, attempts := r.attempts }

/-! ## Request headers, client IP and country resolution -/

/-- Model of `client_ip_from_headers`: first comma-separated entry of
`x-forwarded-for`, trimmed, kept only when non-empty. -/
def client_ip_from_headers (headers : String → Option String) : Option String :=
  match headers "x-forwarded-for" with
  | none => none
  | some v =>
    let first := strTrim ⟨firstCommaTok v.data⟩
    if strIsEmpty first then none else some first

/-- Model of `is_private_or_local_ip`, transcribed literally (including the
bare `"172.2"` test). -/
def is_private_or_local_ip (ip : String) : Bool :=
  ip == "127.0.0.1" || ip == "::1"
    || strStarts ip "10." || strStarts ip "192.168."
    || strStarts ip "172.16." || strStarts ip "172.17."
    || strStarts ip "172.18." || strStarts ip "172.19."
    || strStarts ip "172.2" || strStarts ip "172.30." || strStarts ip "172.31."

/-- Model of `geo_country_lookup`: skip private/loopback IPs entirely; the
network's answer is the oracle `netResp` (`none` = request or decode failed);
a trimmed response that is not exactly two characters is discarded. -/
def geo_country_lookup (netResp : Option String) (ip : String) : Option String :=
  if is_private_or_local_ip ip then none
  else
    match netResp with
    | none => none
    | some text =>
      let code := strTrim text
      if code.data.length = 2 then some code else none

/-- The scanning loop of `country_from_headers` over the candidate list:
the first present, non-empty-after-trim value wins. -/
def country_scan (headers : String → Option String) : List String → Option String
  | [] => none
  | key :: rest =>
    match headers key with
    | some v =>
      let trimmed := strTrim v
      if !(strIsEmpty trimmed) then some trimmed else country_scan headers rest
    | none => country_scan headers rest

/-- Model of `country_from_headers` with its fixed priority list. -/
def country_from_headers (headers : String → Option String) : Option String :=
  country_scan headers ["cf-ipcountry", "x-geo-country", "x-country"]

/-- Model of `country_from_headers_or_ip`: headers first, then the
forwarded-for IP via the network lookup. -/
def country_from_headers_or_ip (netResp : Option String)
    (headers : String → Option String) : Option String :=
  match country_from_headers headers with
  | some c => some c
  | none =>
    match client_ip_from_headers headers with
    | none => none
    | some ip => geo_country_lookup netResp ip

/-! ## Expiration policy and resolution (`is_expired`, `redirect`, `qr_png`) -/

/-- Model of `is_expired`: absent expiry never expires, an unparseable expiry
is treated as expired (fail-safe), a parseable one is expired iff `now >=
expires_at`. -/
def is_expired (parse : String → Option Int) (now : Int)
    (expires_at : Option String) : Bool :=
  match expires_at with
  | none => false
  | some exp =>
    match parse exp with
    | none => true
    | some expT => decide (expT ≤ now)

/-- What the `redirect` handler can do.  `panicked` models the `.unwrap()` on
the store lookup aborting the handler; `internalError` is listed so that the
claim "a store failure surfaces as Internal" is statable, but `redirect` never
produces it. -/
inductive RedirectOutcome where
  | redirectTo (target : String)
  | gone
  | notFound
  | internalError (msg : String)
  | panicked
deriving Repr, DecidableEq

/-- The Click row `redirect` builds for a successful, non-expired resolution:
forwarded-for IP with the `"local"` sentinel fallback, user-agent, referer,
resolved country, and the geo-city header pair. -/
def recorded_click (now : String) (headers : String → Option String)
    (netResp : Option String) (code : String) : Click :=
  { code := code, at' := now,
    ip := some ((client_ip_from_headers headers).getD "local"),
    user_agent := headers "user-agent", referer := headers "referer",
    country := country_from_headers_or_ip netResp headers,
    city := match headers "x-geo-city" with
      | some v => some v
      | none => headers "cf-ipcity" }

/-- The observable outcome of one `redirect` call: the response, the resulting
store, and how many `clicks` inserts were attempted. -/
structure RedirectResult where
  outcome : RedirectOutcome
  store : Store
  click_attempts : Nat
deriving Repr, DecidableEq

/-- Model of the `redirect` handler.  `lookupVerdict` is the store's verdict
on the `SELECT` (whose `Err` the source unwraps), `clickVerdict` its verdict on
the click `INSERT` (whose result the source discards), `now` the formatted
click timestamp, `nowT` the current instant for the expiry comparison. -/
def redirect (parse : String → Option Int) (nowT : Int)
    (lookupVerdict clickVerdict : StoreVerdict) (now : String)
    (headers : String → Option String) (netResp : Option String)
    (s : Store) (code : String) : RedirectResult :=
  match lookupVerdict with
  | .fail _ => { outcome := .panicked, store := s, click_attempts := 0 }
  | .ok =>
    match find_url s code with
    | none => { outcome := .notFound, store := s, click_attempts := 0 }
    | some link =>
      if is_expired parse nowT link.expires_at then
        { outcome := .gone, store := s, click_attempts := 0 }
      else
        let s' := match clickVerdict with
          | .ok => { s with clicks := s.clicks ++ [recorded_click now headers netResp code] }
          | .fail _ => s
        { outcome := .redirectTo link.target_url, store := s', click_attempts := 1 }

/-- The response of the `qr_png` handler. -/
inductive QrOutcome where
  | png
  | notFound
  | qrError
  | encodeError
  | panicked
deriving Repr, DecidableEq

/-- Model of the `qr_png` handler: its existence lookup is also `.unwrap()`ed,
so a store error panics. -/
def qr_png (lookupVerdict : StoreVerdict) (qrOk encodeOk : Bool)
    (s : Store) (code : String) : QrOutcome :=
  match lookupVerdict with
  | .fail _ => .panicked
  | .ok =>
    match find_url s code with
    | none => .notFound
    | some _ => if !qrOk then .qrError else if !encodeOk then .encodeError else .png

/-! ## Stats aggregation (`query_stats`) -/

/-- One row of `clicks_by_day`. -/
structure DailyStats where
  day : String
  clicks : Nat
  unique_visitors : Nat
deriving Repr, DecidableEq

/-- One row of `top_countries`. -/
structure CountryStat where
  country : String
  clicks : Nat
deriving Repr, DecidableEq

/-- One row of `recent_clicks`. -/
structure RecentClick where
  at' : String
  ip : Option String
  country : Option String
  user_agent : Option String
  referer : Option String
deriving Repr, DecidableEq

/-- The stats payload (`StatsResp`). -/
structure StatsResp where
  code : String
  target_url : String
  created_at : String
  expires_at : Option String
  total_clicks : Nat
  unique_visitors : Nat
  clicks_by_day : List DailyStats
  top_countries : List CountryStat
  recent_clicks : List RecentClick
deriving Repr, DecidableEq

/-- SQLite `substr(at, 1, 10)`: the calendar-day part of a click's timestamp. -/
def day_of (c : Click) : String := strTake c.at' 10

/-- The per-day aggregates (`count(*)`, `count(DISTINCT ip)`) for one day. -/
def day_stats (cs : List Click) (d : String) : DailyStats :=
  let dayClicks := cs.filter (fun c => day_of c = d)
  { day := d, clicks := dayClicks.length,
    unique_visitors := (dayClicks.filterMap Click.ip).dedup.length }

/-- Model of the `clicks_by_day` query: group by day, order by day descending,
limit 30. -/
def clicks_by_day_of (cs : List Click) : List DailyStats :=
  ((List.insertionSort (fun a b => strLe b a = true) ((cs.map day_of).dedup)).take 30).map
    (day_stats cs)

/-- The non-null country values of a click list. -/
def country_values (cs : List Click) : List String := cs.filterMap Click.country

/-- Model of the `top_countries` query: per-country counts over non-null
countries, ordered by count descending, limit 10. -/
def top_countries_of (cs : List Click) : List CountryStat :=
  let vals := country_values cs
  (List.insertionSort (fun a b : CountryStat => b.clicks ≤ a.clicks)
      (vals.dedup.map (fun c => { country := c, clicks := vals.count c }))).take 10

/-- Projection of a click row onto the columns `recent_clicks` exposes. -/
def to_recent (c : Click) : RecentClick :=
  { at' := c.at', ip := c.ip, country := c.country,
    user_agent := c.user_agent, referer := c.referer }

/-- Model of the `recent_clicks` query: order by `at` descending, limit 25. -/
def recent_clicks_of (cs : List Click) : List RecentClick :=
  ((List.insertionSort (fun a b : Click => strLe b.at' a.at' = true) cs).take 25).map to_recent

/-- Model of `query_stats`: `NotFound` when no Link has the code, otherwise
the aggregates over the code's click rows. -/
def query_stats (s : Store) (code : String) : Except (Status × String) StatsResp :=
  match find_url s code with
  | none => .error (.notFound, "not found")
  | some link =>
    let cs := clicks_for s code
    .ok { code := code, target_url := link.target_url, created_at := link.created_at,
          expires_at := link.expires_at,
          total_clicks := cs.length,
          unique_visitors := (cs.filterMap Click.ip).dedup.length,
          clicks_by_day := clicks_by_day_of cs,
          top_countries := top_countries_of cs,
          recent_clicks := recent_clicks_of cs }

/-- Claim C10 as stated: starting from the empty rate-limiter state, after
every completed call to `allow` (call times monotone, as `Instant::now` is),
every key's stored list has length at most `limit` and, at the moment of that
call, contains only timestamps within the trailing window. -/
def rl_bounded_claim (rl : RateLimiter) : Prop :=
  ∀ (trace : List (String × Nat)) (call : String × Nat),
    timesMono (trace ++ [call]) = true →
    ∀ key,
      ((rl_run rl rl_empty (trace ++ [call])).2 key).length ≤ rl.limit ∧
      ∀ t ∈ (rl_run rl rl_empty (trace ++ [call])).2 key, call.2 - t < rl.window

/-! ## Helper lemmas -/

theorem lexLe_refl (a : List Char) : lexLe a a = true := by
  induction a with
  | nil => rfl
  | cons x xs ih => simp [lexLe, ih]

theorem lexLe_total : ∀ a b, lexLe a b = true ∨ lexLe b a = true := by
  intro a
  induction a with
  | nil => intro b; left; rfl
  | cons x xs ih =>
    intro b
    cases b with
    | nil => right; rfl
    | cons y ys =>
      rcases lt_trichotomy x y with h | h | h
      · left; simp [lexLe, h]
      · subst h
        rcases ih ys with h2 | h2
        · left; simp [lexLe, h2]
        · right; simp [lexLe, h2]
      · right; simp [lexLe, h]

theorem lexLe_trans : ∀ a b c, lexLe a b = true → lexLe b c = true → lexLe a c = true := by
  intro a
  induction a with
  | nil => intro b c _ _; rfl
  | cons x xs ih =>
    intro b c hab hbc
    cases b with
    | nil => simp [lexLe] at hab
    | cons y ys =>
      cases c with
      | nil => simp [lexLe] at hbc
      | cons z zs =>
        rcases lt_trichotomy x y with h1 | h1 | h1
        · rcases lt_trichotomy y z with h2 | h2 | h2
          · simp [lexLe, lt_trans h1 h2]
          · subst h2; simp [lexLe, h1]
          · exfalso
            simp [lexLe, h2, not_lt_of_gt h2] at hbc
        · subst h1
          rcases lt_trichotomy x z with h2 | h2 | h2
          · simp [lexLe, h2]
          · subst h2
            simp [lexLe, lt_irrefl] at hab hbc ⊢
            exact ih _ _ hab hbc
          · exfalso
            simp [lexLe, h2, not_lt_of_gt h2] at hbc
        · exfalso
          simp [lexLe, h1, not_lt_of_gt h1] at hab

theorem strLe_total (a b : String) : strLe a b = true ∨ strLe b a = true :=
  lexLe_total a.data b.data

theorem strLe_trans {a b c : String} (h1 : strLe a b = true) (h2 : strLe b c = true) :
    strLe a c = true :=
  lexLe_trans a.data b.data c.data h1 h2

theorem insert_url_ok_iff (s : Store) (v : StoreVerdict) (l : Link) (s' : Store) :
    insert_url s v l = .ok s' ↔
      v = .ok ∧ s.urls.any (fun u => u.code = l.code) = false ∧
        s' = { s with urls := s.urls ++ [l] } := by
  cases v with
  | fail msg => simp [insert_url]
  | ok =>
    by_cases h : s.urls.any (fun u => u.code = l.code)
    · simp [insert_url, h]
    · simp only [Bool.not_eq_true] at h
      simp only [insert_url, h, Bool.false_eq_true, if_false, Except.ok.injEq, true_and]
      exact eq_comm

theorem insert_url_codeTaken_iff (s : Store) (v : StoreVerdict) (l : Link) :
    insert_url s v l = .error .codeTaken ↔
      v = .ok ∧ s.urls.any (fun u => u.code = l.code) = true := by
  cases v with
  | fail msg => simp [insert_url]
  | ok =>
    by_cases h : s.urls.any (fun u => u.code = l.code)
    · simp [insert_url, h]
    · simp only [Bool.not_eq_true] at h
      simp [insert_url, h]

theorem insert_url_other_iff (s : Store) (v : StoreVerdict) (l : Link) (msg : String) :
    insert_url s v l = .error (.other msg) ↔ v = .fail msg := by
  cases v with
  | fail m => simp [insert_url]
  | ok =>
    by_cases h : s.urls.any (fun u => u.code = l.code)
    · simp [insert_url, h]
    · simp only [Bool.not_eq_true] at h
      simp [insert_url, h]

theorem find_url_append_self (s : Store) (l : Link)
    (h : s.urls.any (fun u => u.code = l.code) = false) :
    find_url { s with urls := s.urls ++ [l] } l.code = some l := by
  have h1 : ∀ u ∈ s.urls, ¬(u.code = l.code) := by
    intro u hu
    have := List.any_eq_false.mp h u hu
    simpa using this
  unfold find_url
  rw [List.find?_append]
  have h2 : s.urls.find? (fun u => u.code = l.code) = none := by
    rw [List.find?_eq_none]
    intro u hu
    simpa using h1 u hu
  simp [h2, List.find?]

theorem alphanumericSample_isAlphanum (r : Nat) :
    (alphanumericSample r).isAlphanum = true := by
  have hball : ∀ n < 62, (alphanumericChars.getD n 'A').isAlphanum = true := by decide
  exact hball (r % 62) (Nat.mod_lt _ (by omega))

theorem gen_code_length (rng : Nat → Nat) : (gen_code rng).data.length = 7 := by
  simp [gen_code]

theorem gen_code_all_alphanumeric (rng : Nat → Nat) :
    (gen_code rng).data.all Char.isAlphanum = true := by
  simp only [gen_code, List.all_eq_true]
  intro c hc
  simp only [List.mem_map, List.mem_range] at hc
  obtain ⟨i, -, rfl⟩ := hc
  exact alphanumericSample_isAlphanum _

theorem gen_insert_loop_attempts_le (mkL : String → Link) (rngs : Nat → Nat → Nat)
    (verdicts : Nat → StoreVerdict) (s : Store) :
    ∀ fuel i, (gen_insert_loop mkL rngs verdicts s i fuel).attempts ≤ i + fuel := by
  intro fuel
  induction fuel with
  | zero => intro i; simp [gen_insert_loop]
  | succ n ih =>
    intro i
    cases h : insert_url s (verdicts i) (mkL (gen_code (rngs i))) with
    | ok s' => simp [gen_insert_loop, h]
    | error e =>
      cases e with
      | codeTaken =>
        simp only [gen_insert_loop, h]
        have := ih (i + 1)
        omega
      | other msg => simp [gen_insert_loop, h]

theorem gen_insert_loop_ok (mkL : String → Link) (rngs : Nat → Nat → Nat)
    (verdicts : Nat → StoreVerdict) (s : Store) :
    ∀ fuel i c, (gen_insert_loop mkL rngs verdicts s i fuel).code = some c →
      (∃ j, c = gen_code (rngs j)) ∧
      s.urls.any (fun u => u.code = (mkL c).code) = false ∧
      (gen_insert_loop mkL rngs verdicts s i fuel).store =
        { s with urls := s.urls ++ [mkL c] } := by
  intro fuel
  induction fuel with
  | zero => intro i c h; simp [gen_insert_loop] at h
  | succ n ih =>
    intro i c h
    cases hins : insert_url s (verdicts i) (mkL (gen_code (rngs i))) with
    | ok s' =>
      simp only [gen_insert_loop, hins] at h ⊢
      obtain rfl : gen_code (rngs i) = c := by simpa using h
      rcases (insert_url_ok_iff _ _ _ _).mp hins with ⟨-, hany, rfl⟩
      exact ⟨⟨i, rfl⟩, hany, rfl⟩
    | error e =>
      cases e with
      | codeTaken =>
        simp only [gen_insert_loop, hins] at h ⊢
        exact ih (i + 1) c h
      | other msg => simp [gen_insert_loop, hins] at h

theorem gen_insert_loop_all_taken (mkL : String → Link) (rngs : Nat → Nat → Nat)
    (verdicts : Nat → StoreVerdict) (s : Store) :
    ∀ fuel i,
      (∀ j, i ≤ j → j < i + fuel →
        insert_url s (verdicts j) (mkL (gen_code (rngs j))) = .error .codeTaken) →
      gen_insert_loop mkL rngs verdicts s i fuel =
        { store := s, code := none, last_err := none, attempts := i + fuel } := by
  intro fuel
  induction fuel with
  | zero => intro i _; simp [gen_insert_loop]
  | succ n ih =>
    intro i hall
    have h0 : insert_url s (verdicts i) (mkL (gen_code (rngs i))) = .error .codeTaken :=
      hall i le_rfl (by omega)
    simp only [gen_insert_loop, h0]
    have he : i + (n + 1) = (i + 1) + n := by omega
    rw [he]
    exact ih (i + 1) (fun j hj1 hj2 => hall j (by omega) (by omega))

theorem gen_insert_loop_stops_other (mkL : String → Link) (rngs : Nat → Nat → Nat)
    (verdicts : Nat → StoreVerdict) (s : Store) :
    ∀ fuel i k msg, i ≤ k → k < i + fuel →
      (∀ j, i ≤ j → j < k →
        insert_url s (verdicts j) (mkL (gen_code (rngs j))) = .error .codeTaken) →
      insert_url s (verdicts k) (mkL (gen_code (rngs k))) = .error (.other msg) →
      gen_insert_loop mkL rngs verdicts s i fuel =
        { store := s, code := none, last_err := some msg, attempts := k + 1 } := by
  intro fuel
  induction fuel with
  | zero => intro i k msg h1 h2 _ _; omega
  | succ n ih =>
    intro i k msg hik hk hall hother
    by_cases hi : i = k
    · subst hi
      simp [gen_insert_loop, hother]
    · have h0 : insert_url s (verdicts i) (mkL (gen_code (rngs i))) = .error .codeTaken :=
        hall i le_rfl (by omega)
      simp only [gen_insert_loop, h0]
      exact ih (i + 1) k msg (by omega) (by omega) (fun j hj1 hj2 => hall j (by omega) hj2)
        hother

theorem allow_fst_reject (rl : RateLimiter) (st : String → List Nat) (key : String)
    (now : Nat) (hc : rl.limit ≤ ((st key).filter (fun t => now - t < rl.window)).length) :
    (rl.allow st key now).1 = false := by
  unfold RateLimiter.allow
  simp [hc]

theorem allow_fst_accept (rl : RateLimiter) (st : String → List Nat) (key : String)
    (now : Nat)
    (hc : ¬ rl.limit ≤ ((st key).filter (fun t => now - t < rl.window)).length) :
    (rl.allow st key now).1 = true := by
  unfold RateLimiter.allow
  simp [hc]

theorem allow_snd_reject (rl : RateLimiter) (st : String → List Nat) (key : String)
    (now : Nat) (hc : rl.limit ≤ ((st key).filter (fun t => now - t < rl.window)).length) :
    (rl.allow st key now).2 key = (st key).filter (fun t => now - t < rl.window) := by
  unfold RateLimiter.allow
  simp [hc]

theorem allow_snd_accept (rl : RateLimiter) (st : String → List Nat) (key : String)
    (now : Nat)
    (hc : ¬ rl.limit ≤ ((st key).filter (fun t => now - t < rl.window)).length) :
    (rl.allow st key now).2 key =
      (st key).filter (fun t => now - t < rl.window) ++ [now] := by
  unfold RateLimiter.allow
  simp [hc]

theorem allow_snd_other (rl : RateLimiter) (st : String → List Nat) (key : String)
    (now : Nat) (k' : String) (h : k' ≠ key) : (rl.allow st key now).2 k' = st k' := by
  unfold RateLimiter.allow
  by_cases hc : rl.limit ≤ ((st key).filter (fun t => now - t < rl.window)).length
  · simp [hc, h]
  · simp [hc, h]

theorem allow_length_le (rl : RateLimiter) (st : String → List Nat) (key : String)
    (now : Nat) (h : ∀ k, (st k).length ≤ rl.limit) :
    ∀ k, ((rl.allow st key now).2 k).length ≤ rl.limit := by
  intro k
  by_cases hk : k = key
  · subst hk
    by_cases hc : rl.limit ≤ ((st k).filter (fun t => now - t < rl.window)).length
    · rw [allow_snd_reject rl st k now hc]
      exact le_trans (List.length_filter_le _ _) (h k)
    · rw [allow_snd_accept rl st k now hc]
      have := Nat.lt_of_not_le hc
      simp only [List.length_append, List.length_cons, List.length_nil]
      omega
  · rw [allow_snd_other rl st key now k hk]
    exact h k

theorem allow_window (rl : RateLimiter) (st : String → List Nat) (key : String)
    (now : Nat) (hwin : 0 < rl.window) :
    ∀ t ∈ (rl.allow st key now).2 key, now - t < rl.window := by
  by_cases hc : rl.limit ≤ ((st key).filter (fun t => now - t < rl.window)).length
  · rw [allow_snd_reject rl st key now hc]
    intro t ht
    exact of_decide_eq_true (List.mem_filter.mp ht).2
  · rw [allow_snd_accept rl st key now hc]
    intro t ht
    rcases List.mem_append.mp ht with h | h
    · exact of_decide_eq_true (List.mem_filter.mp h).2
    · obtain rfl : t = now := by simpa using h
      simpa [Nat.sub_self] using hwin

theorem rl_run_length_le (rl : RateLimiter) :
    ∀ (trace : List (String × Nat)) (st : String → List Nat),
      (∀ k, (st k).length ≤ rl.limit) →
      ∀ k, ((rl_run rl st trace).2 k).length ≤ rl.limit := by
  intro trace
  induction trace with
  | nil => intro st h k; exact h k
  | cons c rest ih =>
    intro st h k
    obtain ⟨ck, ct⟩ := c
    simp only [rl_run]
    exact ih _ (allow_length_le rl st ck ct h) k

theorem rl_run_append_last (rl : RateLimiter) :
    ∀ (xs : List (String × Nat)) (st : String → List Nat) (c : String × Nat),
      (rl_run rl st (xs ++ [c])).2 = (rl.allow (rl_run rl st xs).2 c.1 c.2).2 := by
  intro xs
  induction xs with
  | nil =>
    intro st c
    obtain ⟨k, t⟩ := c
    simp [rl_run]
  | cons x rest ih =>
    intro st c
    obtain ⟨xk, xt⟩ := x
    simp only [List.cons_append, rl_run]
    exact ih _ c

theorem rl_run_burst (rl : RateLimiter) (key : String) (now0 : Nat) :
    ∀ (ts : List Nat) (st : String → List Nat) (pre : List Nat),
      st key = pre →
      pre.length + ts.length ≤ rl.limit →
      (∀ t ∈ ts, t ≤ now0) →
      (∀ x ∈ pre ++ ts, now0 - x < rl.window) →
      (rl_run rl st (ts.map (fun t => (key, t)))).1 = List.replicate ts.length true ∧
      (rl_run rl st (ts.map (fun t => (key, t)))).2 key = pre ++ ts ∧
      (∀ k', k' ≠ key → (rl_run rl st (ts.map (fun t => (key, t)))).2 k' = st k') := by
  intro ts
  induction ts with
  | nil =>
    intro st pre hpre hlen hle hwin
    simp [rl_run, hpre]
  | cons t ts ih =>
    intro st pre hpre hlen hle hwin
    have hfilter : (st key).filter (fun x => t - x < rl.window) = pre := by
      rw [hpre]
      apply List.filter_eq_self.mpr
      intro x hx
      have h1 : now0 - x < rl.window := hwin x (List.mem_append.mpr (Or.inl hx))
      have h2 : t ≤ now0 := hle t (List.mem_cons_self t ts)
      exact decide_eq_true (lt_of_le_of_lt (Nat.sub_le_sub_right h2 x) h1)
    have hlt : pre.length < rl.limit := by
      simp only [List.length_cons] at hlen
      omega
    have hnotle : ¬ rl.limit ≤ ((st key).filter (fun x => t - x < rl.window)).length := by
      rw [hfilter]
      omega
    have hstep1 : (rl.allow st key t).1 = true := allow_fst_accept rl st key t hnotle
    have hstep2 : (rl.allow st key t).2 key = pre ++ [t] := by
      rw [allow_snd_accept rl st key t hnotle, hfilter]
    obtain ⟨ih1, ih2, ih3⟩ := ih (rl.allow st key t).2 (pre ++ [t]) hstep2
      (by simp only [List.length_append, List.length_cons, List.length_nil] at hlen ⊢
          omega)
      (fun x hx => hle x (List.mem_cons_of_mem t hx))
      (by intro x hx
          apply hwin
          simp only [List.append_assoc, List.singleton_append] at hx
          exact hx)
    refine ⟨?_, ?_, ?_⟩
    · simp only [List.map_cons, rl_run, ih1, hstep1, List.length_cons, List.replicate_succ]
    · simp only [List.map_cons, rl_run, ih2]
      simp [List.append_assoc]
    · intro k' hk'
      simp only [List.map_cons, rl_run, ih3 k' hk']
      exact allow_snd_other rl st key t k' hk'

theorem top_countries_mem (cs : List Click) :
    ∀ e ∈ top_countries_of cs,
      e.country ∈ country_values cs ∧
      e.clicks = (country_values cs).count e.country := by
  intro e he
  unfold top_countries_of at he
  have h1 := List.take_subset _ _ he
  have h2 := ((List.perm_insertionSort _ _).mem_iff).mp h1
  obtain ⟨c, hc, rfl⟩ := List.mem_map.mp h2
  exact ⟨List.mem_dedup.mp hc, rfl⟩

theorem top_countries_sorted (cs : List Click) :
    List.Pairwise (fun a b : CountryStat => b.clicks ≤ a.clicks) (top_countries_of cs) := by
  unfold top_countries_of
  apply List.Pairwise.sublist (List.take_sublist _ _)
  haveI : IsTotal CountryStat (fun a b => b.clicks ≤ a.clicks) :=
    ⟨fun a b => le_total b.clicks a.clicks⟩
  haveI : IsTrans CountryStat (fun a b => b.clicks ≤ a.clicks) :=
    ⟨fun _ _ _ h1 h2 => le_trans h2 h1⟩
  exact List.sorted_insertionSort _ _

theorem top_countries_length (cs : List Click) : (top_countries_of cs).length ≤ 10 := by
  unfold top_countries_of
  exact List.length_take_le _ _

theorem top_countries_sum_le (cs : List Click) :
    ((top_countries_of cs).map CountryStat.clicks).sum ≤ cs.length := by
  unfold top_countries_of
  rw [List.map_take]
  have hperm : (List.insertionSort (fun a b : CountryStat => b.clicks ≤ a.clicks)
      ((country_values cs).dedup.map
        (fun c => { country := c, clicks := (country_values cs).count c }))).map
        CountryStat.clicks |>.Perm
      (((country_values cs).dedup.map
        (fun c => ({ country := c, clicks := (country_values cs).count c } : CountryStat))).map
        CountryStat.clicks) :=
    (List.perm_insertionSort _ _).map _
  have hsum2 : (((country_values cs).dedup.map
      (fun c => ({ country := c, clicks := (country_values cs).count c } : CountryStat))).map
      CountryStat.clicks).sum = (country_values cs).length := by
    rw [List.map_map]
    exact List.sum_map_count_dedup_eq_length (country_values cs)
  set M := (List.insertionSort (fun a b : CountryStat => b.clicks ≤ a.clicks)
      ((country_values cs).dedup.map
        (fun c => { country := c, clicks := (country_values cs).count c }))).map
        CountryStat.clicks with hM
  have hsplit : (List.take 10 M).sum + (List.drop 10 M).sum = M.sum := by
    rw [← List.sum_append, List.take_append_drop]
  have hMsum : M.sum = (country_values cs).length := by
    rw [hperm.sum_eq, hsum2]
  have hvals : (country_values cs).length ≤ cs.length :=
    List.length_filterMap_le _ _
  omega

theorem clicks_by_day_length (cs : List Click) : (clicks_by_day_of cs).length ≤ 30 := by
  unfold clicks_by_day_of
  rw [List.length_map]
  exact List.length_take_le _ _

theorem clicks_by_day_sorted (cs : List Click) :
    List.Pairwise (fun a b : DailyStats => strLe b.day a.day = true)
      (clicks_by_day_of cs) := by
  unfold clicks_by_day_of
  rw [List.pairwise_map]
  apply List.Pairwise.sublist (List.take_sublist _ _)
  haveI : IsTotal String (fun a b => strLe b a = true) :=
    ⟨fun a b => strLe_total b a⟩
  haveI : IsTrans String (fun a b => strLe b a = true) :=
    ⟨fun _ _ _ h1 h2 => strLe_trans h2 h1⟩
  have hs := List.sorted_insertionSort (fun a b : String => strLe b a = true)
    ((cs.map day_of).dedup)
  exact List.Pairwise.imp (fun h => h) hs

theorem clicks_by_day_counts (cs : List Click) :
    ∀ e ∈ clicks_by_day_of cs,
      e.clicks = (cs.filter (fun c => day_of c = e.day)).length := by
  intro e he
  unfold clicks_by_day_of at he
  obtain ⟨d, -, rfl⟩ := List.mem_map.mp he
  rfl

theorem recent_clicks_length (cs : List Click) : (recent_clicks_of cs).length ≤ 25 := by
  unfold recent_clicks_of
  rw [List.length_map]
  exact List.length_take_le _ _

theorem recent_clicks_sorted (cs : List Click) :
    List.Pairwise (fun a b : RecentClick => strLe b.at' a.at' = true)
      (recent_clicks_of cs) := by
  unfold recent_clicks_of
  rw [List.pairwise_map]
  apply List.Pairwise.sublist (List.take_sublist _ _)
  haveI : IsTotal Click (fun a b : Click => strLe b.at' a.at' = true) :=
    ⟨fun a b => strLe_total b.at' a.at'⟩
  haveI : IsTrans Click (fun a b : Click => strLe b.at' a.at' = true) :=
    ⟨fun _ _ _ h1 h2 => strLe_trans h2 h1⟩
  have hs := List.sorted_insertionSort (fun a b : Click => strLe b.at' a.at' = true) cs
  exact List.Pairwise.imp (fun h => h) hs

theorem recent_clicks_mem (cs : List Click) :
    ∀ x ∈ recent_clicks_of cs, ∃ c ∈ cs, to_recent c = x := by
  intro x hx
  unfold recent_clicks_of at hx
  obtain ⟨c, hc, rfl⟩ := List.mem_map.mp hx
  exact ⟨c, ((List.perm_insertionSort _ _).mem_iff).mp (List.take_subset _ _ hc), rfl⟩

theorem recent_clicks_top (cs : List Click) :
    ∀ c ∈ cs, ∀ x ∈ recent_clicks_of cs,
      strLe c.at' x.at' = false → to_recent c ∈ recent_clicks_of cs := by
  intro c hc x hx hlt
  by_contra hnot
  have hcs : c ∈ List.insertionSort (fun a b : Click => strLe b.at' a.at' = true) cs :=
    ((List.perm_insertionSort _ _).mem_iff).mpr hc
  have hsplit := List.take_append_drop 25
    (List.insertionSort (fun a b : Click => strLe b.at' a.at' = true) cs)
  have hc2 : c ∈ (List.insertionSort
        (fun a b : Click => strLe b.at' a.at' = true) cs).take 25 ∨
      c ∈ (List.insertionSort
        (fun a b : Click => strLe b.at' a.at' = true) cs).drop 25 := by
    rw [← List.mem_append, hsplit]
    exact hcs
  rcases hc2 with h | h
  · apply hnot
    unfold recent_clicks_of
    exact List.mem_map_of_mem to_recent h
  · unfold recent_clicks_of at hx
    obtain ⟨y, hy, rfl⟩ := List.mem_map.mp hx
    haveI : IsTotal Click (fun a b : Click => strLe b.at' a.at' = true) :=
      ⟨fun a b => strLe_total b.at' a.at'⟩
    haveI : IsTrans Click (fun a b : Click => strLe b.at' a.at' = true) :=
      ⟨fun _ _ _ h1 h2 => strLe_trans h2 h1⟩
    have hsorted := List.sorted_insertionSort
      (fun a b : Click => strLe b.at' a.at' = true) cs
    rw [← hsplit] at hsorted
    have hpair := (List.pairwise_append.mp hsorted).2.2 y hy c h
    rw [show (to_recent y).at' = y.at' from rfl] at hlt
    simp [hpair] at hlt

theorem shorten_custom_eq (parse : String → Option Int) (rngs : Nat → Nat → Nat)
    (verdicts : Nat → StoreVerdict) (base_url created_at : String)
    (ip ua : Option String) (s : Store) (payload : ShortenReq) (custom target : String)
    (hcustom : payload.custom_code = some custom)
    (hurl : normalize_url payload.url = some target)
    (hexp : expiry_ok parse payload.expires_at = true) :
    shorten parse rngs verdicts base_url created_at ip ua s payload =
      match validate_custom_code custom with
      | .error msg => { result := .error (.badRequest, msg), store := s, attempts := 0 }
      | .ok _ =>
        match insert_url s (verdicts 0)
            { code := custom, target_url := target, created_at := created_at,
              expires_at := payload.expires_at, created_ip := ip,
              created_user_agent := ua } with
        | .error .codeTaken =>
          { result := .error (.conflict, "code already exists"), store := s, attempts := 1 }
        | .error (.other msg) =>
          { result := .error (.internalServerError, "internal error: " ++ msg),
            store := s, attempts := 1 }
        | .ok s' =>
          { result := .ok (mkResp base_url custom payload.expires_at),
            store := s', attempts := 1 } := by
  simp [shorten, hurl, hexp, hcustom]

theorem shorten_gen_eq (parse : String → Option Int) (rngs : Nat → Nat → Nat)
    (verdicts : Nat → StoreVerdict) (base_url created_at : String)
    (ip ua : Option String) (s : Store) (payload : ShortenReq) (target : String)
    (hnone : payload.custom_code = none)
    (hurl : normalize_url payload.url = some target)
    (hexp : expiry_ok parse payload.expires_at = true) :
    shorten parse rngs verdicts base_url created_at ip ua s payload =
      match (gen_insert_loop (fun c =>
          { code := c, target_url := target, created_at := created_at,
            expires_at := payload.expires_at, created_ip := ip,
            created_user_agent := ua }) rngs verdicts s 0 MAX_ATTEMPTS).code with
      | some c =>
        { result := .ok (mkResp base_url c payload.expires_at),
          store := (gen_insert_loop (fun c =>
            { code := c, target_url := target, created_at := created_at,
              expires_at := payload.expires_at, created_ip := ip,
              created_user_agent := ua }) rngs verdicts s 0 MAX_ATTEMPTS).store,
          attempts := (gen_insert_loop (fun c =>
            { code := c, target_url := target, created_at := created_at,
              expires_at := payload.expires_at, created_ip := ip,
              created_user_agent := ua }) rngs verdicts s 0 MAX_ATTEMPTS).attempts }
      | none =>
        { result := .error (.internalServerError,
            "internal error: " ++ ((gen_insert_loop (fun c =>
              { code := c, target_url := target, created_at := created_at,
                expires_at := payload.expires_at, created_ip := ip,
                created_user_agent := ua }) rngs verdicts s 0
                MAX_ATTEMPTS).last_err.getD "failed to generate code")),
          store := (gen_insert_loop (fun c =>
            { code := c, target_url := target, created_at := created_at,
              expires_at := payload.expires_at, created_ip := ip,
              created_user_agent := ua }) rngs verdicts s 0 MAX_ATTEMPTS).store,
          attempts := (gen_insert_loop (fun c =>
            { code := c, target_url := target, created_at := created_at,
              expires_at := payload.expires_at, created_ip := ip,
              created_user_agent := ua }) rngs verdicts s 0 MAX_ATTEMPTS).attempts } := by
  simp [shorten, hurl, hexp, hnone]

/-! ## Claim theorems -/

/-- C2: a resolution request for an unknown code is NotFound; for a known code
whose expiry is expired per the expiration policy (absent expiry never expires,
a parseable expiry is expired iff now >= expires_at, an unparseable expiry is
fail-safe expired) the result is Gone — distinct from NotFound — and no Click
row is appended to the click log. -/
theorem C2_notfound_gone_no_click (parse : String → Option Int) (nowT : Int)
    (clickVerdict : StoreVerdict) (now : String) (headers : String → Option String)
    (netResp : Option String) (s : Store) (code : String) :
    (find_url s code = none →
      redirect parse nowT .ok clickVerdict now headers netResp s code =
        { outcome := .notFound, store := s, click_attempts := 0 }) ∧
    (∀ link, find_url s code = some link →
      is_expired parse nowT link.expires_at = true →
      redirect parse nowT .ok clickVerdict now headers netResp s code =
        { outcome := .gone, store := s, click_attempts := 0 }) ∧
    is_expired parse nowT none = false ∧
    (∀ e t, parse e = some t →
      (is_expired parse nowT (some e) = true ↔ t ≤ nowT)) ∧
    (∀ e, parse e = none → is_expired parse nowT (some e) = true) ∧
    (RedirectOutcome.gone ≠ RedirectOutcome.notFound) := by
  refine ⟨?_, ?_, rfl, ?_, ?_, by simp⟩
  · intro h; simp [redirect, h]
  · intro link hf hexp; simp [redirect, hf, hexp]
  · intro e t hp; simp [is_expired, hp]
  · intro e hp; simp [is_expired, hp]

/-- Witness for C2: a store holding one expired link; resolving it is Gone with
no click appended, resolving an unknown code is NotFound. -/
theorem C2_witness :
    redirect (fun s => if s = "2000-01-01T00:00:00Z" then some 0 else none) 100 .ok .ok
        "2024-01-01T00:00:00Z" (fun _ => none) none
        ⟨[⟨"exp", "https://example.com/x", "2023-01-01T00:00:00Z",
           some "2000-01-01T00:00:00Z", none, none⟩], []⟩ "exp" =
      { outcome := .gone,
        store := ⟨[⟨"exp", "https://example.com/x", "2023-01-01T00:00:00Z",
           some "2000-01-01T00:00:00Z", none, none⟩], []⟩,
        click_attempts := 0 } ∧
    redirect (fun s => if s = "2000-01-01T00:00:00Z" then some 0 else none) 100 .ok .ok
        "2024-01-01T00:00:00Z" (fun _ => none) none
        ⟨[⟨"exp", "https://example.com/x", "2023-01-01T00:00:00Z",
           some "2000-01-01T00:00:00Z", none, none⟩], []⟩ "nope" =
      { outcome := .notFound,
        store := ⟨[⟨"exp", "https://example.com/x", "2023-01-01T00:00:00Z",
           some "2000-01-01T00:00:00Z", none, none⟩], []⟩,
        click_attempts := 0 } :=
  ⟨(C2_notfound_gone_no_click _ _ _ _ _ _ _ _).2.1
      ⟨"exp", "https://example.com/x", "2023-01-01T00:00:00Z",
        some "2000-01-01T00:00:00Z", none, none⟩ (by decide) (by decide),
   (C2_notfound_gone_no_click _ _ _ _ _ _ _ _).1 (by decide)⟩

/-- C7: resolving an existing, non-expired link attempts exactly one Click
insert, and redirects to the stored target whether that insert succeeds or
fails; a failed click insert leaves the store unchanged and is never surfaced. -/
theorem C7_click_recording_best_effort (parse : String → Option Int) (nowT : Int)
    (now : String) (headers : String → Option String) (netResp : Option String)
    (s : Store) (code : String) (link : Link)
    (hfound : find_url s code = some link)
    (hlive : is_expired parse nowT link.expires_at = false) :
    (∀ clickVerdict,
      (redirect parse nowT .ok clickVerdict now headers netResp s code).outcome =
        .redirectTo link.target_url ∧
      (redirect parse nowT .ok clickVerdict now headers netResp s code).click_attempts
        = 1) ∧
    (redirect parse nowT .ok .ok now headers netResp s code).store.clicks =
      s.clicks ++ [recorded_click now headers netResp code] ∧
    (∀ msg,
      (redirect parse nowT .ok (.fail msg) now headers netResp s code).store = s) := by
  refine ⟨?_, ?_, ?_⟩
  · intro cv
    cases cv <;> simp [redirect, hfound, hlive]
  · simp [redirect, hfound, hlive]
  · intro msg; simp [redirect, hfound, hlive]

/-- Witness for C7: a live link redirects and attempts one click insert even
when the click insert fails, and the store is then unchanged. -/
theorem C7_witness :
    (redirect (fun _ => none) 0 .ok (.fail "db down") "2024-01-02T00:00:00Z"
        (fun _ => none) none
        ⟨[⟨"abc", "https://t", "2024-01-01T00:00:00Z", none, none, none⟩], []⟩
        "abc").outcome = .redirectTo "https://t" ∧
    (redirect (fun _ => none) 0 .ok (.fail "db down") "2024-01-02T00:00:00Z"
        (fun _ => none) none
        ⟨[⟨"abc", "https://t", "2024-01-01T00:00:00Z", none, none, none⟩], []⟩
        "abc").click_attempts = 1 ∧
    (redirect (fun _ => none) 0 .ok (.fail "db down") "2024-01-02T00:00:00Z"
        (fun _ => none) none
        ⟨[⟨"abc", "https://t", "2024-01-01T00:00:00Z", none, none, none⟩], []⟩
        "abc").store =
      ⟨[⟨"abc", "https://t", "2024-01-01T00:00:00Z", none, none, none⟩], []⟩ :=
  ⟨((C7_click_recording_best_effort (fun _ => none) 0 "2024-01-02T00:00:00Z"
      (fun _ => none) none _ "abc"
      ⟨"abc", "https://t", "2024-01-01T00:00:00Z", none, none, none⟩
      (by decide) (by decide)).1 (.fail "db down")).1,
   ((C7_click_recording_best_effort (fun _ => none) 0 "2024-01-02T00:00:00Z"
      (fun _ => none) none _ "abc"
      ⟨"abc", "https://t", "2024-01-01T00:00:00Z", none, none, none⟩
      (by decide) (by decide)).1 (.fail "db down")).2,
   (C7_click_recording_best_effort (fun _ => none) 0 "2024-01-02T00:00:00Z"
      (fun _ => none) none _ "abc"
      ⟨"abc", "https://t", "2024-01-01T00:00:00Z", none, none, none⟩
      (by decide) (by decide)).2.2 "db down"⟩

/-- C8: country resolution checks the fixed trusted-header priority list and
the first non-empty trimmed value wins; only when none is present is the
forwarded-for client IP used for a network lookup; that lookup is skipped
entirely for private/loopback IPs, and a response whose trimmed value is not
exactly 2 characters is discarded (country unknown). -/
theorem C8_country_chain (headers : String → Option String) (netResp : Option String) :
    (∀ c, country_from_headers headers = some c →
        country_from_headers_or_ip netResp headers = some c) ∧
    (∀ v, headers "cf-ipcountry" = some v → strIsEmpty (strTrim v) = false →
        country_from_headers headers = some (strTrim v)) ∧
    (∀ v, country_scan headers ["cf-ipcountry"] = none →
        headers "x-geo-country" = some v → strIsEmpty (strTrim v) = false →
        country_from_headers headers = some (strTrim v)) ∧
    (country_from_headers headers = none → ∀ ip,
        client_ip_from_headers headers = some ip →
        country_from_headers_or_ip netResp headers = geo_country_lookup netResp ip) ∧
    (country_from_headers headers = none → client_ip_from_headers headers = none →
        country_from_headers_or_ip netResp headers = none) ∧
    (∀ ip, is_private_or_local_ip ip = true → geo_country_lookup netResp ip = none) ∧
    (∀ ip text, is_private_or_local_ip ip = false → netResp = some text →
        (strTrim text).length ≠ 2 → geo_country_lookup netResp ip = none) := by
  refine ⟨?_, ?_, ?_, ?_, ?_, ?_, ?_⟩
  · intro c h; simp [country_from_headers_or_ip, h]
  · intro v hv hne
    simp [country_from_headers, country_scan, hv, hne]
  · intro v hcf hv hne
    cases h0 : headers "cf-ipcountry" with
    | none => simp [country_from_headers, country_scan, h0, hv, hne]
    | some v0 =>
      have hemp : strIsEmpty (strTrim v0) = true := by
        by_contra hne0
        simp only [Bool.not_eq_true] at hne0
        simp [country_scan, h0, hne0] at hcf
      simp [country_from_headers, country_scan, h0, hemp, hv, hne]
  · intro h ip hip
    simp [country_from_headers_or_ip, h, hip]
  · intro h hip
    simp [country_from_headers_or_ip, h, hip]
  · intro ip hpriv
    simp [geo_country_lookup, hpriv]
  · intro ip text hpub hresp hlen
    unfold geo_country_lookup
    rw [hresp]
    simp [hpub, hlen]

/-- Witness for C8: a trusted header wins over the network; a private IP skips
the lookup even with a network answer available; a 3-letter network answer for
a public IP is discarded. -/
theorem C8_witness :
    country_from_headers_or_ip (some "US")
      (fun k => if k = "cf-ipcountry" then some " RO " else
                if k = "x-forwarded-for" then some "1.2.3.4" else none) = some "RO" ∧
    geo_country_lookup (some "US") "10.0.0.1" = none ∧
    geo_country_lookup (some "USA") "1.2.3.4" = none :=
  ⟨(C8_country_chain
      (fun k => if k = "cf-ipcountry" then some " RO " else
                if k = "x-forwarded-for" then some "1.2.3.4" else none)
      (some "US")).1 "RO" (by decide),
   (C8_country_chain (fun _ => none) (some "US")).2.2.2.2.2.1 "10.0.0.1" (by decide),
   (C8_country_chain (fun _ => none) (some "USA")).2.2.2.2.2.2 "1.2.3.4" "USA"
      (by decide) rfl (by decide)⟩

/-- C9 (code bug): when the store's point lookup fails, `redirect` (and
`qr_png`) unwrap the error and panic — the outcome is never an Internal error
response, contradicting the spec's error taxonomy. -/
theorem C9_lookup_error_panics (parse : String → Option Int) (nowT : Int) (msg : String)
    (clickVerdict : StoreVerdict) (now : String) (headers : String → Option String)
    (netResp : Option String) (s : Store) (code : String) (qrOk encodeOk : Bool) :
    (redirect parse nowT (.fail msg) clickVerdict now headers netResp s code).outcome
      = .panicked ∧
    (∀ m, (redirect parse nowT (.fail msg) clickVerdict now headers netResp s
      code).outcome ≠ .internalError m) ∧
    qr_png (.fail msg) qrOk encodeOk s code = .panicked := by
  refine ⟨rfl, ?_, rfl⟩
  intro m
  simp [redirect]

/-- C6: each `allow` call first prunes the key's timestamps to the trailing
window, rejects without recording `now` when at least `limit` remain, and
otherwise records `now` and admits; consequently after exactly `limit`
admitted requests from one key within the window the next request from that
key is rejected (surfacing as 429 through the middleware), while a request
from a different key in the same window is still admitted. -/
theorem C6_sliding_window (rl : RateLimiter) :
    (∀ (st : String → List Nat) (key : String) (now : Nat),
      (rl.limit ≤ ((st key).filter (fun t => now - t < rl.window)).length →
        (rl.allow st key now).1 = false ∧
        (rl.allow st key now).2 key =
          (st key).filter (fun t => now - t < rl.window)) ∧
      (((st key).filter (fun t => now - t < rl.window)).length < rl.limit →
        (rl.allow st key now).1 = true ∧
        (rl.allow st key now).2 key =
          (st key).filter (fun t => now - t < rl.window) ++ [now]) ∧
      (∀ k', k' ≠ key → (rl.allow st key now).2 k' = st k')) ∧
    (∀ (key key' : String) (ts : List Nat) (now : Nat),
      key' ≠ key → 0 < rl.limit → ts.length = rl.limit →
      (∀ t ∈ ts, t ≤ now) → (∀ t ∈ ts, now - t < rl.window) →
      (rl_run rl rl_empty (ts.map (fun t => (key, t)))).1 =
          List.replicate rl.limit true ∧
      (rl.allow (rl_run rl rl_empty (ts.map (fun t => (key, t)))).2 key now).1
          = false ∧
      (rate_limit_middleware rl (rl_run rl rl_empty (ts.map (fun t => (key, t)))).2
          (some key) now).1 =
        some (.tooManyRequests, "rate limit exceeded (10 requests/minute)") ∧
      (rl.allow (rl_run rl rl_empty (ts.map (fun t => (key, t)))).2 key' now).1
          = true ∧
      (rate_limit_middleware rl (rl_run rl rl_empty (ts.map (fun t => (key, t)))).2
          (some key') now).1 = none) := by
  constructor
  · intro st key now
    refine ⟨?_, ?_, fun k' h => allow_snd_other rl st key now k' h⟩
    · intro hc
      exact ⟨allow_fst_reject rl st key now hc, allow_snd_reject rl st key now hc⟩
    · intro hc
      exact ⟨allow_fst_accept rl st key now (Nat.not_le.mpr hc),
        allow_snd_accept rl st key now (Nat.not_le.mpr hc)⟩
  · intro key key' ts now hk' hpos hlen hle hwin
    obtain ⟨h1, h2, h3⟩ := rl_run_burst rl key now ts rl_empty [] rfl
      (by simpa using Nat.le_of_eq hlen) hle (by simpa using hwin)
    have h2' : (rl_run rl rl_empty (ts.map (fun t => (key, t)))).2 key = ts := by
      simpa using h2
    have hfilter : ts.filter (fun t => now - t < rl.window) = ts :=
      List.filter_eq_self.mpr (fun t ht => decide_eq_true (hwin t ht))
    have hc : rl.limit ≤
        (((rl_run rl rl_empty (ts.map (fun t => (key, t)))).2 key).filter
          (fun t => now - t < rl.window)).length := by
      rw [h2', hfilter, hlen]
    have hempty : (rl_run rl rl_empty (ts.map (fun t => (key, t)))).2 key' = [] :=
      h3 key' hk'
    have hc' : ¬ rl.limit ≤
        (((rl_run rl rl_empty (ts.map (fun t => (key, t)))).2 key').filter
          (fun t => now - t < rl.window)).length := by
      rw [hempty]
      simpa using Nat.pos_iff_ne_zero.mp hpos
    refine ⟨by rw [h1, hlen], allow_fst_reject rl _ key now hc, ?_,
      allow_fst_accept rl _ key' now hc', ?_⟩
    · simp [rate_limit_middleware, allow_fst_reject rl _ key now hc]
    · simp [rate_limit_middleware, allow_fst_accept rl _ key' now hc']

/-- Witness for C6: with limit 2 and window 60, two admitted requests from
key "a" at times 0 and 1, then at time 1 key "a" is rejected while key "b" is
admitted. -/
theorem C6_witness :
    (rl_run ⟨2, 60⟩ rl_empty ([0, 1].map (fun t => ("a", t)))).1 =
        List.replicate 2 true ∧
    ((⟨2, 60⟩ : RateLimiter).allow
        (rl_run ⟨2, 60⟩ rl_empty ([0, 1].map (fun t => ("a", t)))).2 "a" 1).1
      = false ∧
    ((⟨2, 60⟩ : RateLimiter).allow
        (rl_run ⟨2, 60⟩ rl_empty ([0, 1].map (fun t => ("a", t)))).2 "b" 1).1
      = true :=
  have h := (C6_sliding_window ⟨2, 60⟩).2 "a" "b" [0, 1] 1 (by decide) (by decide)
    (by decide) (by decide) (by decide)
  ⟨h.1, h.2.1, h.2.2.2.1⟩

/-- C10 counterexample: with limit 1 and window 5, calling `allow` for key "a"
at time 0 and then for key "b" at time 10 (monotone times) leaves key "a"
holding timestamp 0, which is outside the trailing window of the completed
second call — the claim as stated is false. -/
theorem C10_counterexample : ¬ rl_bounded_claim ⟨1, 5⟩ := by
  intro h
  have hmem : (0 : Nat) ∈ (rl_run ⟨1, 5⟩ rl_empty ([("a", 0)] ++ [("b", 10)])).2 "a" := by
    decide
  have h2 := (h [("a", 0)] ("b", 10) (by decide) "a").2 0 hmem
  exact absurd h2 (by decide)

/-- C10 (amended): after every completed call to `allow` from the empty state,
every key's stored list has length at most `limit`; and — for a positive
window — the list stored for the key of that very call contains only
timestamps within that call's trailing window.  (Keys not touched by the call
are not re-pruned, which is what the counterexample exhibits.) -/
theorem C10_bounded_state (rl : RateLimiter) (hwin : 0 < rl.window)
    (trace : List (String × Nat)) (call : String × Nat) :
    (∀ key, ((rl_run rl rl_empty (trace ++ [call])).2 key).length ≤ rl.limit) ∧
    (∀ t ∈ (rl_run rl rl_empty (trace ++ [call])).2 call.1,
      call.2 - t < rl.window) := by
  constructor
  · intro key
    exact rl_run_length_le rl (trace ++ [call]) rl_empty
      (fun k => by simp [rl_empty]) key
  · rw [rl_run_append_last]
    exact allow_window rl _ call.1 call.2 hwin

/-- Witness for C10 (amended): the counterexample trace still satisfies the
amended claim — key "a" stays bounded by the limit, and the called key "b" only
holds in-window timestamps. -/
theorem C10_witness :
    ((rl_run ⟨1, 5⟩ rl_empty ([("a", 0)] ++ [("b", 10)])).2 "a").length ≤ 1 ∧
    ∀ t ∈ (rl_run ⟨1, 5⟩ rl_empty ([("a", 0)] ++ [("b", 10)])).2 "b", 10 - t < 5 :=
  ⟨(C10_bounded_state ⟨1, 5⟩ (by decide) [("a", 0)] ("b", 10)).1 "a",
   (C10_bounded_state ⟨1, 5⟩ (by decide) [("a", 0)] ("b", 10)).2⟩

/-- C4: with a custom code, a length outside [3,32] or a character outside
[A-Za-z0-9_-] fails with InvalidInput before any insert; otherwise exactly one
insert is attempted, a uniqueness violation yields Conflict, any other store
error yields Internal — and creating twice with the same valid custom code
yields success then Conflict. -/
theorem C4_custom_code (parse : String → Option Int) (rngs : Nat → Nat → Nat)
    (verdicts : Nat → StoreVerdict) (base_url created_at : String)
    (ip ua : Option String) (s : Store) (payload : ShortenReq) (custom target : String)
    (hcustom : payload.custom_code = some custom)
    (hurl : normalize_url payload.url = some target)
    (hexp : expiry_ok parse payload.expires_at = true) :
    ((validate_custom_code custom = .ok ()) ↔
      (3 ≤ custom.data.length ∧ custom.data.length ≤ 32 ∧
        ∀ ch ∈ custom.data, ch.isAlphanum = true ∨ ch = '-' ∨ ch = '_')) ∧
    (∀ msg, validate_custom_code custom = .error msg →
      shorten parse rngs verdicts base_url created_at ip ua s payload =
        { result := .error (.badRequest, msg), store := s, attempts := 0 }) ∧
    (validate_custom_code custom = .ok () →
      (shorten parse rngs verdicts base_url created_at ip ua s payload).attempts = 1 ∧
      (insert_url s (verdicts 0)
          { code := custom, target_url := target, created_at := created_at,
            expires_at := payload.expires_at, created_ip := ip,
            created_user_agent := ua } = .error .codeTaken →
        (shorten parse rngs verdicts base_url created_at ip ua s payload).result =
          .error (.conflict, "code already exists")) ∧
      (∀ msg, insert_url s (verdicts 0)
          { code := custom, target_url := target, created_at := created_at,
            expires_at := payload.expires_at, created_ip := ip,
            created_user_agent := ua } = .error (.other msg) →
        (shorten parse rngs verdicts base_url created_at ip ua s payload).result =
          .error (.internalServerError, "internal error: " ++ msg)) ∧
      (∀ s', insert_url s (verdicts 0)
          { code := custom, target_url := target, created_at := created_at,
            expires_at := payload.expires_at, created_ip := ip,
            created_user_agent := ua } = .ok s' →
        (shorten parse rngs verdicts base_url created_at ip ua s payload).result =
          .ok (mkResp base_url custom payload.expires_at) ∧
        (shorten parse rngs verdicts base_url created_at ip ua s payload).store = s')) ∧
    (validate_custom_code custom = .ok () → verdicts 0 = .ok →
      s.urls.any (fun u => u.code = custom) = false →
      (shorten parse rngs verdicts base_url created_at ip ua s payload).result =
        .ok (mkResp base_url custom payload.expires_at) ∧
      (shorten parse rngs verdicts base_url created_at ip ua
          (shorten parse rngs verdicts base_url created_at ip ua s payload).store
          payload).result = .error (.conflict, "code already exists")) := by
  have hred := shorten_custom_eq parse rngs verdicts base_url created_at ip ua s payload
    custom target hcustom hurl hexp
  refine ⟨?_, ?_, ?_, ?_⟩
  · constructor
    · intro h
      unfold validate_custom_code at h
      by_cases h1 : 3 ≤ custom.data.length ∧ custom.data.length ≤ 32
      · rw [if_neg (not_not_intro h1)] at h
        by_cases h2 : ∀ c ∈ custom.data, c.isAlphanum = true ∨ c = '-' ∨ c = '_'
        · exact ⟨h1.1, h1.2, h2⟩
        · rw [if_pos h2] at h
          exact Except.noConfusion h
      · rw [if_pos h1] at h
        exact Except.noConfusion h
    · rintro ⟨ha, hb, hc⟩
      unfold validate_custom_code
      rw [if_neg (not_not_intro ⟨ha, hb⟩), if_neg (not_not_intro hc)]
  · intro msg hv
    rw [hred, hv]
  · intro hv
    rw [hv] at hred
    cases hins : insert_url s (verdicts 0)
        { code := custom, target_url := target, created_at := created_at,
          expires_at := payload.expires_at, created_ip := ip,
          created_user_agent := ua } with
    | ok s' =>
      rw [hins] at hred
      refine ⟨by rw [hred], ?_, ?_, ?_⟩
      · intro habs; simp at habs
      · intro msg habs; simp at habs
      · intro s'' hs''
        injection hs'' with hs''
        subst hs''
        rw [hred]
        exact ⟨rfl, rfl⟩
    | error e =>
      cases e with
      | codeTaken =>
        rw [hins] at hred
        refine ⟨by rw [hred], fun _ => by rw [hred], ?_, ?_⟩
        · intro msg habs; simp at habs
        · intro s'' habs; simp at habs
      | other msg =>
        rw [hins] at hred
        refine ⟨by rw [hred], ?_, ?_, ?_⟩
        · intro habs; simp at habs
        · intro msg' habs
          injection habs with habs
          injection habs with habs
          subst habs
          rw [hred]
        · intro s'' habs; simp at habs
  · intro hv hverd hfree
    have hins : insert_url s (verdicts 0)
        { code := custom, target_url := target, created_at := created_at,
          expires_at := payload.expires_at, created_ip := ip,
          created_user_agent := ua } =
        .ok { s with urls := s.urls ++
          [{ code := custom, target_url := target, created_at := created_at,
             expires_at := payload.expires_at, created_ip := ip,
             created_user_agent := ua }] } :=
      (insert_url_ok_iff _ _ _ _).mpr ⟨hverd, hfree, rfl⟩
    rw [hv, hins] at hred
    have hstore : (shorten parse rngs verdicts base_url created_at ip ua s
        payload).store = { s with urls := s.urls ++
          [{ code := custom, target_url := target, created_at := created_at,
             expires_at := payload.expires_at, created_ip := ip,
             created_user_agent := ua }] } := by rw [hred]
    refine ⟨by rw [hred], ?_⟩
    have hred2 := shorten_custom_eq parse rngs verdicts base_url created_at ip ua
      (shorten parse rngs verdicts base_url created_at ip ua s payload).store payload
      custom target hcustom hurl hexp
    have hins2 : insert_url
        (shorten parse rngs verdicts base_url created_at ip ua s payload).store
        (verdicts 0)
        { code := custom, target_url := target, created_at := created_at,
          expires_at := payload.expires_at, created_ip := ip,
          created_user_agent := ua } = .error .codeTaken := by
      apply (insert_url_codeTaken_iff _ _ _).mpr
      refine ⟨hverd, ?_⟩
      rw [hstore]
      simp
    rw [hv, hins2] at hred2
    rw [hred2]

/-- Witness for C4: creating "mycode" twice on an empty store succeeds then
conflicts. -/
theorem C4_witness :
    (shorten (fun _ => none) (fun _ i => i) (fun _ => .ok) "http://localhost:3000"
        "2024-01-01T00:00:00Z" none none ⟨[], []⟩
        ⟨"https://example.com/a", some "mycode", none⟩).result =
      .ok (mkResp "http://localhost:3000" "mycode" none) ∧
    (shorten (fun _ => none) (fun _ i => i) (fun _ => .ok) "http://localhost:3000"
        "2024-01-01T00:00:00Z" none none
        (shorten (fun _ => none) (fun _ i => i) (fun _ => .ok) "http://localhost:3000"
          "2024-01-01T00:00:00Z" none none ⟨[], []⟩
          ⟨"https://example.com/a", some "mycode", none⟩).store
        ⟨"https://example.com/a", some "mycode", none⟩).result =
      .error (.conflict, "code already exists") :=
  (C4_custom_code (fun _ => none) (fun _ i => i) (fun _ => .ok) "http://localhost:3000"
    "2024-01-01T00:00:00Z" none none ⟨[], []⟩
    ⟨"https://example.com/a", some "mycode", none⟩ "mycode" "https://example.com/a"
    rfl (by decide) rfl).2.2.2 (by decide) rfl (by decide)

/-- C5: without a custom code the generate-and-insert loop makes at most 8
insert attempts; a uniqueness violation regenerates and retries; the first
non-uniqueness store error stops the loop immediately and surfaces as Internal
with that error's message; and if all 8 attempts hit uniqueness violations the
call fails with Internal carrying "failed to generate code". -/
theorem C5_generate_retry_loop (parse : String → Option Int) (rngs : Nat → Nat → Nat)
    (verdicts : Nat → StoreVerdict) (base_url created_at : String)
    (ip ua : Option String) (s : Store) (payload : ShortenReq) (target : String)
    (L : String → Link)
    (hL : L = fun c =>
      { code := c, target_url := target, created_at := created_at,
        expires_at := payload.expires_at, created_ip := ip, created_user_agent := ua })
    (hnone : payload.custom_code = none)
    (hurl : normalize_url payload.url = some target)
    (hexp : expiry_ok parse payload.expires_at = true) :
    (shorten parse rngs verdicts base_url created_at ip ua s payload).attempts ≤ 8 ∧
    (∀ i fuel, insert_url s (verdicts i) (L (gen_code (rngs i))) = .error .codeTaken →
      gen_insert_loop L rngs verdicts s i (fuel + 1) =
        gen_insert_loop L rngs verdicts s (i + 1) fuel) ∧
    (∀ i fuel msg,
      insert_url s (verdicts i) (L (gen_code (rngs i))) = .error (.other msg) →
      gen_insert_loop L rngs verdicts s i (fuel + 1) =
        { store := s, code := none, last_err := some msg, attempts := i + 1 }) ∧
    (∀ k msg, k < 8 →
      (∀ j, j < k →
        insert_url s (verdicts j) (L (gen_code (rngs j))) = .error .codeTaken) →
      insert_url s (verdicts k) (L (gen_code (rngs k))) = .error (.other msg) →
      shorten parse rngs verdicts base_url created_at ip ua s payload =
        { result := .error (.internalServerError, "internal error: " ++ msg),
          store := s, attempts := k + 1 }) ∧
    ((∀ j, j < 8 →
        insert_url s (verdicts j) (L (gen_code (rngs j))) = .error .codeTaken) →
      shorten parse rngs verdicts base_url created_at ip ua s payload =
        { result := .error (.internalServerError,
            "internal error: failed to generate code"),
          store := s, attempts := 8 }) := by
  have hred := shorten_gen_eq parse rngs verdicts base_url created_at ip ua s payload
    target hnone hurl hexp
  rw [← hL] at hred
  refine ⟨?_, ?_, ?_, ?_, ?_⟩
  · have hb := gen_insert_loop_attempts_le L rngs verdicts s MAX_ATTEMPTS 0
    rw [hred]
    cases hc : (gen_insert_loop L rngs verdicts s 0 MAX_ATTEMPTS).code with
    | some c => simpa [hc] using hb
    | none => simpa [hc] using hb
  · intro i fuel htaken
    simp only [gen_insert_loop, htaken]
  · intro i fuel msg hother
    simp only [gen_insert_loop, hother]
  · intro k msg hk hall hother
    have hloop := gen_insert_loop_stops_other L rngs verdicts s MAX_ATTEMPTS 0 k msg
      (Nat.zero_le k) (by simpa [MAX_ATTEMPTS] using hk)
      (fun j _ hj => hall j hj) hother
    rw [hred, hloop]
    rfl
  · intro hall
    have hloop := gen_insert_loop_all_taken L rngs verdicts s MAX_ATTEMPTS 0
      (fun j _ hj => hall j (by simpa [MAX_ATTEMPTS] using hj))
    rw [hred, hloop]
    rfl

/-- Witness for C5: with a store already holding the code every attempt
generates ("AAAAAAA" under a constant RNG), all 8 attempts collide and the
call fails with Internal "failed to generate code" after 8 attempts. -/
theorem C5_witness :
    shorten (fun _ => none) (fun _ _ => 0) (fun _ => .ok) "http://localhost:3000"
        "2024-01-01T00:00:00Z" none none
        ⟨[⟨"AAAAAAA", "https://other", "2023-01-01T00:00:00Z", none, none, none⟩], []⟩
        ⟨"https://example.com/x", none, none⟩ =
      { result := .error (.internalServerError,
          "internal error: failed to generate code"),
        store := ⟨[⟨"AAAAAAA", "https://other", "2023-01-01T00:00:00Z",
          none, none, none⟩], []⟩,
        attempts := 8 } :=
  (C5_generate_retry_loop (fun _ => none) (fun _ _ => 0) (fun _ => .ok)
    "http://localhost:3000" "2024-01-01T00:00:00Z" none none
    ⟨[⟨"AAAAAAA", "https://other", "2023-01-01T00:00:00Z", none, none, none⟩], []⟩
    ⟨"https://example.com/x", none, none⟩ "https://example.com/x" _ rfl rfl
    (by decide) rfl).2.2.2.2 (by decide)

/-- C1: for every valid target URL (trimmed, it starts with http:// or
https://) submitted with no custom code and no expiry, a successful createLink
returns a code of length exactly 7 whose characters are all alphanumeric, and
resolving that code immediately afterwards redirects to the same trimmed
target URL. -/
theorem C1_create_then_resolve (parse : String → Option Int) (rngs : Nat → Nat → Nat)
    (verdicts : Nat → StoreVerdict) (base_url created_at : String)
    (ip ua : Option String) (s : Store) (url target : String) (resp : ShortenResp)
    (hurl : normalize_url url = some target)
    (hok : (shorten parse rngs verdicts base_url created_at ip ua s
      ⟨url, none, none⟩).result = .ok resp) :
    resp.code.data.length = 7 ∧
    resp.code.data.all Char.isAlphanum = true ∧
    target = strTrim url ∧
    ∀ (parse2 : String → Option Int) (nowT : Int) (clickVerdict : StoreVerdict)
      (now : String) (headers : String → Option String) (netResp : Option String),
      (redirect parse2 nowT .ok clickVerdict now headers netResp
        (shorten parse rngs verdicts base_url created_at ip ua s
          ⟨url, none, none⟩).store resp.code).outcome = .redirectTo target := by
  have htrim : target = strTrim url := by
    simp only [normalize_url] at hurl
    split at hurl
    · injection hurl with hurl
      exact hurl.symm
    · cases hurl
  have hred := shorten_gen_eq parse rngs verdicts base_url created_at ip ua s
    ⟨url, none, none⟩ target rfl hurl rfl
  cases hc : (gen_insert_loop (fun c =>
      { code := c, target_url := target, created_at := created_at,
        expires_at := (⟨url, none, none⟩ : ShortenReq).expires_at, created_ip := ip,
        created_user_agent := ua }) rngs verdicts s 0 MAX_ATTEMPTS).code with
  | none =>
    rw [hred, hc] at hok
    simp at hok
  | some c =>
    rw [hred, hc] at hok
    obtain rfl : resp = mkResp base_url c none := by
      have : Except.ok (mkResp base_url c none) = Except.ok resp := hok
      injection this with h
      exact h.symm
    obtain ⟨⟨j, hj⟩, hany, hstore⟩ := gen_insert_loop_ok (fun c =>
      { code := c, target_url := target, created_at := created_at,
        expires_at := (⟨url, none, none⟩ : ShortenReq).expires_at, created_ip := ip,
        created_user_agent := ua }) rngs verdicts s MAX_ATTEMPTS 0 c hc
    refine ⟨?_, ?_, htrim, ?_⟩
    · rw [show (mkResp base_url c none).code = c from rfl, hj]
      exact gen_code_length _
    · rw [show (mkResp base_url c none).code = c from rfl, hj]
      exact gen_code_all_alphanumeric _
    · intro parse2 nowT clickVerdict now headers netResp
      have hstore2 : (shorten parse rngs verdicts base_url created_at ip ua s
          ⟨url, none, none⟩).store =
          { s with urls := s.urls ++ [(⟨c, target, created_at, none, ip, ua⟩ : Link)] } := by
        rw [hred, hc]
        exact hstore
      rw [hstore2]
      have hfind : find_url
          { s with urls := s.urls ++ [(⟨c, target, created_at, none, ip, ua⟩ : Link)] } c =
          some (⟨c, target, created_at, none, ip, ua⟩ : Link) :=
        find_url_append_self s (⟨c, target, created_at, none, ip, ua⟩ : Link)
          (by simpa using hany)
      rw [show (mkResp base_url c none).code = c from rfl]
      simp [redirect, hfind, is_expired]

/-- Witness for C1: creating on an empty store with a constant RNG yields
code "ABCDEFG" (7 alphanumerics) and resolving it redirects to the trimmed
target. -/
theorem C1_witness :
    (shorten (fun _ => none) (fun _ i => i) (fun _ => .ok) "http://localhost:3000"
        "2024-01-01T00:00:00Z" none none ⟨[], []⟩
        ⟨"  https://example.com/hello ", none, none⟩).result =
      .ok (mkResp "http://localhost:3000" "ABCDEFG" none) ∧
    (mkResp "http://localhost:3000" "ABCDEFG" none).code.data.length = 7 ∧
    (redirect (fun _ => none) 0 .ok .ok "2024-01-02T00:00:00Z" (fun _ => none) none
        (shorten (fun _ => none) (fun _ i => i) (fun _ => .ok) "http://localhost:3000"
          "2024-01-01T00:00:00Z" none none ⟨[], []⟩
          ⟨"  https://example.com/hello ", none, none⟩).store
        (mkResp "http://localhost:3000" "ABCDEFG" none).code).outcome =
      .redirectTo "https://example.com/hello" :=
  have h := C1_create_then_resolve (fun _ => none) (fun _ i => i) (fun _ => .ok)
    "http://localhost:3000" "2024-01-01T00:00:00Z" none none ⟨[], []⟩
    "  https://example.com/hello " "https://example.com/hello"
    (mkResp "http://localhost:3000" "ABCDEFG" none) (by decide) (by decide)
  ⟨by decide, h.1,
    h.2.2.2 (fun _ => none) 0 .ok "2024-01-02T00:00:00Z" (fun _ => none) none⟩

/-- C3: getStats fails with NotFound iff no Link has the code; otherwise
total_clicks counts all rows for the code, unique_visitors counts distinct
non-null ips, top_countries lists per-country counts sorted descending by
count and capped at 10 with counts summing to at most total_clicks,
clicks_by_day groups by the first 10 characters of the timestamp, most recent
day first, capped at 30, and recent_clicks holds the 25 most recent rows by
timestamp descending. -/
theorem C3_stats_aggregates (s : Store) (code : String) :
    (query_stats s code = .error (.notFound, "not found") ↔ find_url s code = none) ∧
    (∀ r, query_stats s code = .ok r →
      r.total_clicks = (clicks_for s code).length ∧
      r.unique_visitors = ((clicks_for s code).filterMap Click.ip).dedup.length ∧
      (∀ e ∈ r.top_countries,
        e.country ∈ country_values (clicks_for s code) ∧
        e.clicks = (country_values (clicks_for s code)).count e.country) ∧
      List.Pairwise (fun a b : CountryStat => b.clicks ≤ a.clicks) r.top_countries ∧
      r.top_countries.length ≤ 10 ∧
      (r.top_countries.map CountryStat.clicks).sum ≤ r.total_clicks ∧
      r.clicks_by_day.length ≤ 30 ∧
      List.Pairwise (fun a b : DailyStats => strLe b.day a.day = true) r.clicks_by_day ∧
      (∀ e ∈ r.clicks_by_day,
        e.clicks = ((clicks_for s code).filter (fun c => day_of c = e.day)).length) ∧
      r.recent_clicks.length ≤ 25 ∧
      List.Pairwise (fun a b : RecentClick => strLe b.at' a.at' = true) r.recent_clicks ∧
      (∀ x ∈ r.recent_clicks, ∃ c ∈ clicks_for s code, to_recent c = x) ∧
      (∀ c ∈ clicks_for s code, ∀ x ∈ r.recent_clicks,
        strLe c.at' x.at' = false → to_recent c ∈ r.recent_clicks)) := by
  constructor
  · unfold query_stats
    cases h : find_url s code with
    | none => simp
    | some link => simp
  · intro r hr
    unfold query_stats at hr
    cases h : find_url s code with
    | none =>
      rw [h] at hr
      cases hr
    | some link =>
      rw [h] at hr
      have hr' : Except.ok
          (⟨code, link.target_url, link.created_at, link.expires_at,
            (clicks_for s code).length,
            ((clicks_for s code).filterMap Click.ip).dedup.length,
            clicks_by_day_of (clicks_for s code),
            top_countries_of (clicks_for s code),
            recent_clicks_of (clicks_for s code)⟩ : StatsResp) = Except.ok r := hr
      injection hr' with hr''
      subst hr''
      refine ⟨rfl, rfl, top_countries_mem _, top_countries_sorted _,
        top_countries_length _, top_countries_sum_le _, clicks_by_day_length _,
        clicks_by_day_sorted _, clicks_by_day_counts _, recent_clicks_length _,
        recent_clicks_sorted _, recent_clicks_mem _, recent_clicks_top _⟩

/-- Witness for C3: a store with one link and three clicks (two countries, two
distinct IPs over two days); the computed stats record is exactly as computed
and its top-countries counts sum to at most total_clicks. -/
theorem C3_witness :
    query_stats
        ⟨[⟨"abc", "https://t", "2024-01-01T00:00:00Z", none, none, none⟩],
         [⟨"abc", "2024-01-02T10:00:00Z", some "1.2.3.4", none, none, some "RO", none⟩,
          ⟨"abc", "2024-01-03T11:00:00Z", some "5.6.7.8", none, none, some "US", none⟩,
          ⟨"abc", "2024-01-03T12:00:00Z", some "1.2.3.4", none, none, some "RO", none⟩]⟩
        "abc" =
      .ok { code := "abc", target_url := "https://t",
            created_at := "2024-01-01T00:00:00Z", expires_at := none,
            total_clicks := 3, unique_visitors := 2,
            clicks_by_day := [⟨"2024-01-03", 2, 2⟩, ⟨"2024-01-02", 1, 1⟩],
            top_countries := [⟨"RO", 2⟩, ⟨"US", 1⟩],
            recent_clicks :=
              [⟨"2024-01-03T12:00:00Z", some "1.2.3.4", some "RO", none, none⟩,
               ⟨"2024-01-03T11:00:00Z", some "5.6.7.8", some "US", none, none⟩,
               ⟨"2024-01-02T10:00:00Z", some "1.2.3.4", some "RO", none, none⟩] } ∧
    (([(⟨"RO", 2⟩ : CountryStat), ⟨"US", 1⟩].map CountryStat.clicks).sum ≤ 3) :=
  ⟨by decide,
   ((C3_stats_aggregates
      ⟨[⟨"abc", "https://t", "2024-01-01T00:00:00Z", none, none, none⟩],
       [⟨"abc", "2024-01-02T10:00:00Z", some "1.2.3.4", none, none, some "RO", none⟩,
        ⟨"abc", "2024-01-03T11:00:00Z", some "5.6.7.8", none, none, some "US", none⟩,
        ⟨"abc", "2024-01-03T12:00:00Z", some "1.2.3.4", none, none, some "RO", none⟩]⟩
      "abc").2
      { code := "abc", target_url := "https://t",
        created_at := "2024-01-01T00:00:00Z", expires_at := none,
        total_clicks := 3, unique_visitors := 2,
        clicks_by_day := [⟨"2024-01-03", 2, 2⟩, ⟨"2024-01-02", 1, 1⟩],
        top_countries := [⟨"RO", 2⟩, ⟨"US", 1⟩],
        recent_clicks :=
          [⟨"2024-01-03T12:00:00Z", some "1.2.3.4", some "RO", none, none⟩,
           ⟨"2024-01-03T11:00:00Z", some "5.6.7.8", some "US", none, none⟩,
           ⟨"2024-01-02T10:00:00Z", some "1.2.3.4", some "RO", none, none⟩] }
      (by decide)).2.2.2.2.2.1⟩

end UrlShortener
